import Mathlib

/-!
Verification of the message-dispatch core of the business review-funnel app.

Shallow embedding of:
* `normalizePhone` from `sms-server.js` (phone normalizer),
* the `POST /send-sms` input-validation prefix from `sms-server.js`,
* the Meta WhatsApp error-hint classification from the `POST /send-whatsapp`
  handler in `sms-server.js`,
* the SMS queue drain, `sendSmsToCustomer`, `handleOpenFunnel` and
  `addFeedback` from `App.tsx`,
* the batch-send summary from the settings page (`handleSendSms`).

Conventions: JavaScript strings are Lean `String`s; regular-expression tests
from the source are expanded into the equivalent decidable character-list
predicates; values that can be JS `undefined` are `Option`s; timestamps and
randomly generated ids are environment inputs and are either omitted (when the
claims do not mention them) or passed in as parameters.
-/

namespace Business

/-- Customer lifecycle status, from `src/types.ts`. -/
inductive CustomerStatus where
  | Pending
  | Sent
  | Clicked
  | Reviewed
  | Failed
deriving DecidableEq, Repr

/-- Feedback sentiment, from `src/types.ts`. -/
inductive Sentiment where
  | positive
  | negative
deriving DecidableEq, Repr

/-- One feedback entry, from `src/types.ts` (the entries built by
`addFeedback` additionally carry an optional `rating`).  The `date` field is a
wall-clock timestamp and is omitted. -/
structure FeedbackEntry where
  id : String
  text : String
  sentiment : Sentiment
  phone : Option String := none
  rating : Option Nat := none
deriving DecidableEq, Repr

/-- A customer record, from `src/types.ts`.  `addedAt` is a wall-clock
timestamp and is omitted; `feedback` defaults to the empty list, matching the
`c.feedback || []` reads in the source. -/
structure Customer where
  id : String
  name : String
  phone : String
  status : CustomerStatus
  rating : Option Nat := none
  feedback : List FeedbackEntry := []
deriving DecidableEq, Repr

/-- One activity-log record, from `src/types.ts`; the random `id` and the
timestamp are omitted. -/
structure LogEntry where
  customerName : String
  action : String
deriving DecidableEq, Repr

/-! ## Phone normalizer (`normalizePhone`, `sms-server.js` lines 12-33) -/

/-- Characters kept by the cleaning step `raw.replace(/[^0-9+]/g, "")`:
digits and every `+` sign. -/
def keepPhoneChar (c : Char) : Bool := c.isDigit || c == '+'

/-- JS whitespace test used by `String.prototype.trim` (restricted to the
whitespace characters Lean knows; the strings the normalizer trims contain
only digits and `+`, so this is only ever applied to non-whitespace). -/
def isJsWs (c : Char) : Bool := c.isWhitespace

/-- JS `String.prototype.trim` on a character list. -/
def jsTrimList (l : List Char) : List Char :=
  ((l.dropWhile isJsWs).reverse.dropWhile isJsWs).reverse

/-- The cleaning step of `normalizePhone`:
`String(raw).replace(/[^0-9+]/g, "").trim()`. -/
def cleanPhone (raw : String) : String :=
  String.mk (jsTrimList (raw.toList.filter keepPhoneChar))

/-- `^[0-9]*$` on a character list. -/
def allDigits (l : List Char) : Bool := l.all Char.isDigit

/-- The regex test `/^[0-9]{10,15}$/.test(s)`. -/
def isE164Digits (l : List Char) : Bool :=
  decide (10 ≤ l.length) && decide (l.length ≤ 15) && allDigits l

/-- The regex test `/^[6-9][0-9]{9}$/.test(s)` (India mobile heuristic). -/
def isIndiaMobile (l : List Char) : Bool :=
  match l with
  | [] => false
  | d :: rest => ('6' ≤ d && d ≤ '9') && decide (rest.length = 9) && allDigits rest

/-- Result of `normalizePhone`: `{ok:true, value}` or `{ok:false, reason}`. -/
inductive NormResult where
  | ok (value : String)
  | fail (reason : String)
deriving DecidableEq, Repr

/-- The `ok` field of a `normalizePhone` result. -/
def NormResult.isOk : NormResult → Bool
  | .ok _ => true
  | .fail _ => false

/-- `normalizePhone` from `sms-server.js`.  `if (!raw)` is the JS falsy test,
which for a string argument means the empty string; `cleaned.startsWith("+")`
is the head test; `cleaned.slice(1)` is `tail`; `replace(/^0+/, "")` strips
every leading `0`. -/
def normalizePhone (raw : String) : NormResult :=
  if raw = "" then .fail "Empty phone"
  else
    let cleaned := (cleanPhone raw).toList
    if cleaned.head? = some '+' then
      if isE164Digits cleaned.tail then .ok (cleanPhone raw)
      else .fail "Invalid E.164 format"
    else
      let digitsOnly := cleaned.dropWhile (fun c => c == '0')
      if isIndiaMobile digitsOnly then .ok ("+91" ++ String.mk digitsOnly)
      else if isE164Digits digitsOnly then
        .fail "Ambiguous country code; include +<country_code>"
      else .fail "Unrecognized phone pattern"

/-! ### Helper lemmas about cleaning -/

theorem strMk_toList (s : String) : String.mk s.toList = s := rfl

theorem keepPhoneChar_not_ws (c : Char) (h : keepPhoneChar c = true) :
    isJsWs c = false := by
  unfold keepPhoneChar at h
  unfold isJsWs Char.isWhitespace
  rcases Bool.or_eq_true_iff.mp h with hd | hp
  · have h48 : 48 ≤ c.toNat := by
      unfold Char.isDigit at hd
      have h1 := (Bool.and_eq_true_iff.mp hd).1
      have : ('0' : Char) ≤ c := decide_eq_true_eq.mp h1
      simpa [Char.le_def, Char.toNat] using this
    have hne : ∀ d : Char, d.toNat < 48 → decide (c = d) = false := by
      intro d hdlt
      apply decide_eq_false
      intro he
      subst he
      omega
    simp only [Bool.or_eq_false_iff]
    exact ⟨⟨⟨hne ' ' (by decide), hne '\t' (by decide)⟩, hne '\r' (by decide)⟩,
      hne '\n' (by decide)⟩
  · have : c = '+' := by simpa using hp
    subst this
    decide

theorem dropWhile_of_all_neg {p : Char → Bool} :
    ∀ l : List Char, (∀ c ∈ l, p c = false) → l.dropWhile p = l := by
  intro l h
  cases l with
  | nil => rfl
  | cons a t =>
      have ha : p a = false := h a (List.mem_cons_self a t)
      simp [List.dropWhile, ha]

theorem jsTrimList_of_all_keep (l : List Char)
    (h : ∀ c ∈ l, keepPhoneChar c = true) : jsTrimList l = l := by
  have hws : ∀ c ∈ l, isJsWs c = false := fun c hc =>
    keepPhoneChar_not_ws c (h c hc)
  unfold jsTrimList
  rw [dropWhile_of_all_neg l hws]
  rw [dropWhile_of_all_neg l.reverse (fun c hc => hws c (List.mem_reverse.mp hc))]
  exact List.reverse_reverse l

theorem cleanPhone_eq_filter (raw : String) :
    (cleanPhone raw).toList = raw.toList.filter keepPhoneChar := by
  show jsTrimList (raw.toList.filter keepPhoneChar) = raw.toList.filter keepPhoneChar
  exact jsTrimList_of_all_keep _ (fun c hc => List.of_mem_filter hc)

theorem cleanPhone_idem (raw : String) :
    cleanPhone (cleanPhone raw) = cleanPhone raw := by
  have h1 : (cleanPhone (cleanPhone raw)).toList = (cleanPhone raw).toList := by
    rw [cleanPhone_eq_filter (cleanPhone raw), cleanPhone_eq_filter raw]
    rw [List.filter_filter]
    apply List.filter_congr
    intro c _
    cases keepPhoneChar c <;> simp
  calc cleanPhone (cleanPhone raw)
      = String.mk (cleanPhone (cleanPhone raw)).toList := (strMk_toList _).symm
    _ = String.mk (cleanPhone raw).toList := by rw [h1]
    _ = cleanPhone raw := strMk_toList _

theorem cleanPhone_empty : cleanPhone "" = "" := by decide

/-- Evaluation of `normalizePhone` on the no-leading-`+` branch. -/
theorem normalizePhone_not_plus (raw : String) (hraw : raw ≠ "")
    (h : (cleanPhone raw).toList.head? ≠ some '+') :
    normalizePhone raw =
      (if isIndiaMobile ((cleanPhone raw).toList.dropWhile (fun c => c == '0')) then
        .ok ("+91" ++ String.mk ((cleanPhone raw).toList.dropWhile (fun c => c == '0')))
      else if isE164Digits ((cleanPhone raw).toList.dropWhile (fun c => c == '0')) then
        .fail "Ambiguous country code; include +<country_code>"
      else .fail "Unrecognized phone pattern") := by
  unfold normalizePhone
  rw [if_neg hraw, if_neg h]

/-! ## Claim C3 -/

/-- **C3.** If the cleaned form of the input is `+` followed by 10-15 digits,
`normalizePhone` succeeds with that cleaned value unchanged; if the cleaned
form starts with `+` but the rest does not match `[0-9]{10,15}`, it fails with
reason "Invalid E.164 format". -/
theorem c3_normalize_e164 (raw : String) (digits : List Char)
    (h : (cleanPhone raw).toList = '+' :: digits) :
    (isE164Digits digits = true → normalizePhone raw = .ok (cleanPhone raw)) ∧
    (isE164Digits digits = false →
      normalizePhone raw = .fail "Invalid E.164 format") := by
  have hraw : raw ≠ "" := by
    intro he
    subst he
    rw [cleanPhone_empty] at h
    simp at h
  have hh : (cleanPhone raw).toList.head? = some '+' := by rw [h]; rfl
  have ht : (cleanPhone raw).toList.tail = digits := by rw [h]; rfl
  constructor
  · intro hd
    unfold normalizePhone
    rw [if_neg hraw, if_pos hh, ht, if_pos hd]
  · intro hd
    unfold normalizePhone
    rw [if_neg hraw, if_pos hh, ht, if_neg (by simp [hd])]

/-- Witness for C3: a valid E.164 number (with noise characters) and an
invalid one. -/
theorem c3_witness :
    normalizePhone " +1 (234) 567-8901" = .ok "+12345678901" ∧
    normalizePhone "+12" = .fail "Invalid E.164 format" := by
  constructor
  · have := (c3_normalize_e164 " +1 (234) 567-8901"
      "12345678901".toList (by decide)).1 (by decide)
    rw [this]
    decide
  · exact (c3_normalize_e164 "+12" "12".toList (by decide)).2 (by decide)

/-! ## Claim C4 -/

/-- **C4.** For inputs whose cleaned form does not start with `+` (the
"Otherwise" branch of spec §4.1, i.e. inputs without a leading `+`): after
stripping leading zeros, a 10-digit string starting with 6-9 is accepted with
`+91` prefixed; a 10-15 digit string not of that shape is rejected as
"Ambiguous country code; include +<country_code>"; anything else (e.g. 16
digits with no `+`) is rejected (`ok:false`). -/
theorem c4_normalize_domestic (raw : String)
    (h : (cleanPhone raw).toList.head? ≠ some '+') :
    (isIndiaMobile ((cleanPhone raw).toList.dropWhile (fun c => c == '0')) = true →
      normalizePhone raw =
        .ok ("+91" ++ String.mk ((cleanPhone raw).toList.dropWhile (fun c => c == '0')))) ∧
    (isIndiaMobile ((cleanPhone raw).toList.dropWhile (fun c => c == '0')) = false →
      isE164Digits ((cleanPhone raw).toList.dropWhile (fun c => c == '0')) = true →
      normalizePhone raw = .fail "Ambiguous country code; include +<country_code>") ∧
    (isIndiaMobile ((cleanPhone raw).toList.dropWhile (fun c => c == '0')) = false →
      isE164Digits ((cleanPhone raw).toList.dropWhile (fun c => c == '0')) = false →
      (normalizePhone raw).isOk = false) := by
  by_cases hraw : raw = ""
  · subst hraw
    rw [cleanPhone_empty]
    refine ⟨?_, ?_, ?_⟩
    · intro h1; cases h1
    · intro _ h2; cases h2
    · intro _ _; decide
  · refine ⟨?_, ?_, ?_⟩
    · intro h1
      rw [normalizePhone_not_plus raw hraw h, if_pos h1]
    · intro h1 h2
      rw [normalizePhone_not_plus raw hraw h,
        if_neg (by rw [Bool.not_eq_true]; exact h1), if_pos h2]
    · intro h1 h2
      rw [normalizePhone_not_plus raw hraw h,
        if_neg (by rw [Bool.not_eq_true]; exact h1),
        if_neg (by rw [Bool.not_eq_true]; exact h2)]
      rfl

/-- Witness for C4: the spec's own examples — a domestic mobile number, an
ambiguous 10-digit number, and a 16-digit string. -/
theorem c4_witness :
    normalizePhone "9876543210" = .ok "+919876543210" ∧
    normalizePhone "1234567890" = .fail "Ambiguous country code; include +<country_code>" ∧
    (normalizePhone "1234567890123456").isOk = false := by
  refine ⟨?_, ?_, ?_⟩
  · have := (c4_normalize_domestic "9876543210" (by decide)).1 (by decide)
    rw [this]
    decide
  · exact (c4_normalize_domestic "1234567890" (by decide)).2.1 (by decide) (by decide)
  · exact (c4_normalize_domestic "1234567890123456" (by decide)).2.2 (by decide) (by decide)

/-! ## Claim C5 -/

/-- The cleaning step as the spec's words describe it (claim C5): delete every
character other than digits and one leading `+`. -/
def stripSpecC5 (raw : String) : String :=
  let digits := String.mk (raw.toList.filter Char.isDigit)
  if raw.toList.head? = some '+' then "+" ++ digits else digits

/-- **C5 counterexample.** The code's cleaning step keeps every `+`, not only
a leading one, so an interior `+` changes the outcome: on `"+12+34567890"` the
code fails with "Invalid E.164 format", while on the spec-cleaned form
`"+1234567890"` it succeeds. -/
theorem c5_counterexample :
    stripSpecC5 "+12+34567890" = "+1234567890" ∧
    normalizePhone "+12+34567890" = .fail "Invalid E.164 format" ∧
    normalizePhone (stripSpecC5 "+12+34567890") = .ok "+1234567890" ∧
    normalizePhone "+12+34567890" ≠ normalizePhone (stripSpecC5 "+12+34567890") := by
  refine ⟨by decide, by decide, by decide, by decide⟩

/-- **C5 amended.** The first step of `normalizePhone` strips every character
except digits and `+` signs (all of them, not just a leading one): for every
raw input whose kept characters are nonempty, `normalizePhone raw` equals
`normalizePhone` of the cleaned form, so noise characters other than `+` never
change the outcome beyond being removed, while an interior `+` is kept and
leads to rejection. -/
theorem c5_clean_amended (raw : String)
    (h : raw.toList.filter keepPhoneChar ≠ []) :
    normalizePhone raw = normalizePhone (cleanPhone raw) := by
  have hclean : (cleanPhone raw).toList = raw.toList.filter keepPhoneChar :=
    cleanPhone_eq_filter raw
  have hc_ne : cleanPhone raw ≠ "" := by
    intro he
    have : (cleanPhone raw).toList = [] := by rw [he]; rfl
    rw [hclean] at this
    exact h this
  have hraw : raw ≠ "" := by
    intro he
    subst he
    simp at h
  unfold normalizePhone
  rw [if_neg hraw, if_neg hc_ne, cleanPhone_idem]

/-- Witness for C5 amended: a number with noise characters. -/
theorem c5_witness :
    ("(987) 654-3210".toList.filter keepPhoneChar ≠ []) ∧
    normalizePhone "(987) 654-3210" = normalizePhone (cleanPhone "(987) 654-3210") := by
  refine ⟨by decide, c5_clean_amended "(987) 654-3210" (by decide)⟩

/-! ## `POST /send-sms` input validation (`sms-server.js` lines 53-97)

The handler is embedded up to the point where it either rejects the request
locally or hands the normalized numbers to the Twilio client.  A JS field that
is missing or empty is falsy, so the missing-field test is modelled by `= ""`.
The three rejection constructors all answer HTTP 400 with a locally generated
reason (the literal "Missing required fields." or the text built from the
normalizer reason); `callProvider` is the single point where the Twilio client
is invoked. -/

/-- Outcome of the `/send-sms` handler before any network call. -/
inductive SmsRouteResult where
  | missingFields
  | invalidFrom (reason : String)
  | invalidTo (reason : String)
  | callProvider (fromE164 toE164 body : String)
deriving DecidableEq, Repr

/-- The validation prefix of `app.post("/send-sms", ...)`. -/
def sendSmsRoute (accountSid authToken fromNum toNum body : String) : SmsRouteResult :=
  if accountSid = "" || authToken = "" || fromNum = "" || toNum = "" || body = "" then
    .missingFields
  else
    match normalizePhone fromNum with
    | .fail r => .invalidFrom r
    | .ok nf =>
        match normalizePhone toNum with
        | .fail r => .invalidTo r
        | .ok nt => .callProvider nf nt body

/-- The HTTP status of a locally rejected request (`res.status(400)`); `none`
when the handler proceeds to the provider call instead of rejecting. -/
def SmsRouteResult.rejectStatus : SmsRouteResult → Option Nat
  | .missingFields => some 400
  | .invalidFrom _ => some 400
  | .invalidTo _ => some 400
  | .callProvider _ _ _ => none

/-- The locally generated reason carried by a rejection. -/
def SmsRouteResult.localReason : SmsRouteResult → Option String
  | .missingFields => some "Missing required fields."
  | .invalidFrom r => some r
  | .invalidTo r => some r
  | .callProvider _ _ _ => none

/-- Whether the Twilio client is invoked. -/
def SmsRouteResult.invokesProvider : SmsRouteResult → Bool
  | .callProvider _ _ _ => true
  | _ => false

/-- **C6.** A `/send-sms` request with a missing required field, or whose
`from` or `to` fails normalization, is answered with HTTP 400 carrying a
locally generated reason, and the Twilio client is never invoked.  The handler
is a single-shot function of the request: no retry happens. -/
theorem c6_send_sms_input_errors (sid tok f t b : String)
    (h : sid = "" ∨ tok = "" ∨ f = "" ∨ t = "" ∨ b = "" ∨
      (normalizePhone f).isOk = false ∨ (normalizePhone t).isOk = false) :
    (sendSmsRoute sid tok f t b).rejectStatus = some 400 ∧
    (sendSmsRoute sid tok f t b).invokesProvider = false ∧
    (sendSmsRoute sid tok f t b).localReason.isSome = true := by
  have main : (sendSmsRoute sid tok f t b).invokesProvider = false := by
    unfold sendSmsRoute
    by_cases hm : sid = "" || tok = "" || f = "" || t = "" || b = ""
    · rw [if_pos hm]; rfl
    · rw [if_neg hm]
      rcases h with h | h | h | h | h | h | h
      · exact absurd (by simp [h]) hm
      · exact absurd (by simp [h]) hm
      · exact absurd (by simp [h]) hm
      · exact absurd (by simp [h]) hm
      · exact absurd (by simp [h]) hm
      · cases hnf : normalizePhone f with
        | ok v => rw [hnf] at h; cases h
        | fail r => rfl
      · cases hnf : normalizePhone f with
        | ok v =>
            cases hnt : normalizePhone t with
            | ok w => rw [hnt] at h; cases h
            | fail r => rfl
        | fail r => rfl
  refine ⟨?_, main, ?_⟩ <;>
    cases hr : sendSmsRoute sid tok f t b <;>
      first
        | rfl
        | (exfalso; rw [hr] at main; cases main)

/-- Witness for C6: all fields present but an unnormalizable `to` number. -/
theorem c6_witness :
    (sendSmsRoute "AC123" "token" "+15550001111" "abc" "hello").rejectStatus = some 400 ∧
    (sendSmsRoute "AC123" "token" "+15550001111" "abc" "hello").invokesProvider = false ∧
    (sendSmsRoute "AC123" "token" "+15550001111" "abc" "hello").localReason.isSome = true :=
  c6_send_sms_input_errors "AC123" "token" "+15550001111" "abc" "hello"
    (Or.inr (Or.inr (Or.inr (Or.inr (Or.inr (Or.inr (by decide)))))))

/-! ## Meta WhatsApp error-hint classification
(`POST /send-whatsapp`, `sms-server.js` lines 278-335)

The handler computes `details = err?.error_data?.details || err?.message || ""`
and then assigns `hint` through an `if`/`else if` chain keyed on the HTTP
status, `err.code`, `err.error_subcode` and two case-insensitive regex tests
on `details`.  The chain is embedded as `waErrorHint`; the regex tests are
expanded into substring searches on the lower-cased text, with `\s*` in
`/24\s*hour/` expanded into `dropWhile` on whitespace. -/

/-- Is `n` a prefix of `h`? -/
def hasPfx : List Char → List Char → Bool
  | [], _ => true
  | _ :: _, [] => false
  | a :: as, b :: bs => a == b && hasPfx as bs

/-- Does `n` occur as a contiguous substring of the second list? -/
def hasSubList (n : List Char) : List Char → Bool
  | [] => n.isEmpty
  | c :: rest => hasPfx n (c :: rest) || hasSubList n rest

/-- Substring containment on strings. -/
def strContainsSub (hay needle : String) : Bool :=
  hasSubList needle.toList hay.toList

/-- Lower-cased character list of a string (for the `/i` regex flag). -/
def charsLower (s : String) : List Char := s.toList.map Char.toLower

/-- Match of `24\s*hour` starting at the head of the list. -/
def m24AtHere : List Char → Bool
  | '2' :: '4' :: rest => hasPfx "hour".toList (rest.dropWhile isJsWs)
  | _ => false

/-- Does `p` hold on some suffix of the list? -/
def anyTail (p : List Char → Bool) : List Char → Bool
  | [] => p []
  | c :: rest => p (c :: rest) || anyTail p rest

/-- The regex test `/24\s*hour|customer care window|outside the 24/i.test(details)`. -/
def details24h (s : String) : Bool :=
  anyTail m24AtHere (charsLower s) ||
    hasSubList "customer care window".toList (charsLower s) ||
    hasSubList "outside the 24".toList (charsLower s)

/-- The regex test `/Unsupported message type|type is invalid/i.test(details)`. -/
def detailsUnsupportedType (s : String) : Bool :=
  hasSubList "unsupported message type".toList (charsLower s) ||
    hasSubList "type is invalid".toList (charsLower s)

/-- Hint for HTTP 404 from the Cloud API. -/
def metaHint404 : String :=
  "Phone Number ID not found or token lacks permission. Confirm Phone Number ID in Meta > WhatsApp > Getting Started and use a token from the same Business Account."

/-- Hint for `code 190`, `error_subcode 463`. -/
def metaHint190sub463 : String :=
  "Access token expired. Create a System User permanent token in Business Settings and update your server env."

/-- Hint for `code 190`, `error_subcode 467`. -/
def metaHint190sub467 : String :=
  "Invalid access token. Ensure you\x27re using a valid token from the same Business Account with whatsapp_business_messaging scope."

/-- Hint for `code 190` with any other subcode (the source file stores this
string with a mojibake hyphen, reproduced here with escapes). -/
def metaHint190other : String :=
  "Invalid or expired access token. Regenerate and use a longâ€‘lived System User token."

/-- Hint for `code 100`. -/
def metaHint100 : String :=
  "Invalid parameter. Ensure \x27to\x27 is a valid E.164 phone and this business has user opt-in."

/-- Hint for `code 131026`. -/
def metaHint131026 : String :=
  "Recipient is not a valid WhatsApp user for this API or may have blocked messages. Verify the phone has WhatsApp, is not blocked, and is added as a tester if using a test business phone."

/-- Hint for a 24-hour-window detail text. -/
def metaHint24h : String :=
  "Free-form text can only be sent within 24h of user\x27s last message. Use an approved template for initial outreach or outside the 24h window."

/-- Hint for an unsupported-message-type detail text. -/
def metaHintPayload : String :=
  "Message payload invalid. For simple text, ensure type=\x27text\x27 and text.body is a non-empty string."

/-- The error-hint chain of `POST /send-whatsapp`. -/
def waErrorHint (httpStatus : Nat) (code errorSubcode : Option Int)
    (details : String) : Option String :=
  if httpStatus = 404 then some metaHint404
  else if code = some 190 then
    if errorSubcode = some 463 then some metaHint190sub463
    else if errorSubcode = some 467 then some metaHint190sub467
    else some metaHint190other
  else if code = some 100 then some metaHint100
  else if code = some 131026 then some metaHint131026
  else if details24h details then some metaHint24h
  else if detailsUnsupportedType details then some metaHintPayload
  else none

/-- **C7.** The Meta error classifier: code 190 / subcode 463 yields a hint
mentioning "expired"; code 190 / subcode 467 yields the invalid-access-token
hint; HTTP 404 yields the hint about the Phone Number ID not being found or
the token lacking permission (the 404 test precedes the code tests, so the
190-conjuncts are stated away from 404); any input matching none of the
table's entries yields no hint (`none`) — and the classifier is a total
function, so absence of a match never throws. -/
theorem c7_wa_error_hints (httpStatus : Nat) (code sub : Option Int)
    (details : String) :
    (httpStatus ≠ 404 → code = some 190 → sub = some 463 →
      waErrorHint httpStatus code sub details = some metaHint190sub463 ∧
      strContainsSub metaHint190sub463 "expired" = true) ∧
    (httpStatus ≠ 404 → code = some 190 → sub = some 467 →
      waErrorHint httpStatus code sub details = some metaHint190sub467 ∧
      strContainsSub metaHint190sub467 "Invalid access token" = true) ∧
    (httpStatus = 404 →
      waErrorHint httpStatus code sub details = some metaHint404 ∧
      strContainsSub metaHint404 "Phone Number ID not found or token lacks permission" = true) ∧
    (httpStatus ≠ 404 → code ≠ some 190 → code ≠ some 100 → code ≠ some 131026 →
      details24h details = false → detailsUnsupportedType details = false →
      waErrorHint httpStatus code sub details = none) := by
  refine ⟨?_, ?_, ?_, ?_⟩
  · intro h404 hc hs
    refine ⟨?_, by decide⟩
    unfold waErrorHint
    rw [if_neg h404, if_pos hc, if_pos hs]
  · intro h404 hc hs
    refine ⟨?_, by decide⟩
    unfold waErrorHint
    rw [if_neg h404, if_pos hc, if_neg (by rw [hs]; decide), if_pos hs]
  · intro h404
    refine ⟨?_, by decide⟩
    unfold waErrorHint
    rw [if_pos h404]
  · intro h404 h190 h100 h131026 hd1 hd2
    unfold waErrorHint
    rw [if_neg h404, if_neg h190, if_neg h100, if_neg h131026,
      if_neg (by rw [Bool.not_eq_true]; exact hd1),
      if_neg (by rw [Bool.not_eq_true]; exact hd2)]

/-- Witness for C7: the spec's mocked response `{error:{code:190,
error_subcode:463}}` with HTTP 400, the 467 variant, a plain 404, and an
unmatched code 1. -/
theorem c7_witness :
    (waErrorHint 400 (some 190) (some 463) "" = some metaHint190sub463 ∧
      strContainsSub metaHint190sub463 "expired" = true) ∧
    (waErrorHint 400 (some 190) (some 467) "" = some metaHint190sub467 ∧
      strContainsSub metaHint190sub467 "Invalid access token" = true) ∧
    (waErrorHint 404 (some 190) (some 463) "" = some metaHint404 ∧
      strContainsSub metaHint404 "Phone Number ID not found or token lacks permission" = true) ∧
    waErrorHint 400 (some 1) (some 1) "all good" = none := by
  refine ⟨?_, ?_, ?_, ?_⟩
  · exact (c7_wa_error_hints 400 (some 190) (some 463) "").1
      (by decide) rfl rfl
  · exact (c7_wa_error_hints 400 (some 190) (some 467) "").2.1
      (by decide) rfl rfl
  · exact (c7_wa_error_hints 404 (some 190) (some 463) "").2.2.1 rfl
  · exact (c7_wa_error_hints 400 (some 1) (some 1) "all good").2.2.2
      (by decide) (by decide) (by decide) (by decide) (by decide) (by decide)

/-! ## Batch SMS summary (`handleSendSms`, settings page lines 264-277) -/

/-- One recorded failure of the settings-page batch send loop. -/
structure SmsFailure where
  name : String
  phone : String
  error : String
  code : Option Int := none
deriving DecidableEq, Repr

/-- The status message assembled after the batch send loop: all-success,
all-failures-are-21608 (Twilio trial verification), or generic with the first
failure surfaced.  `total` is the number of selected recipients and `success`
the number of successful sends. -/
def smsBatchSummary (total success : Nat) (failures : List SmsFailure) : String :=
  match failures with
  | [] => "All " ++ toString success ++ " SMS sent successfully."
  | f :: rest =>
      let n := (f :: rest).length
      if ((f :: rest).filter (fun g => g.code == some 21608)).length = n then
        "Sent " ++ toString success ++ "/" ++ toString total ++ ". " ++ toString n ++
          " failed because numbers are not verified for a Twilio trial. Verify them or upgrade to remove this restriction."
      else
        "Sent " ++ toString success ++ "/" ++ toString total ++ ". Failed: " ++ toString n ++
          ". First error: " ++ f.name ++ " - " ++ f.error

theorem smsBatchSummary_cons (total success : Nat) (f : SmsFailure)
    (rest : List SmsFailure) :
    smsBatchSummary total success (f :: rest) =
      if ((f :: rest).filter (fun g => g.code == some 21608)).length =
          (f :: rest).length then
        "Sent " ++ toString success ++ "/" ++ toString total ++ ". " ++
          toString (f :: rest).length ++
          " failed because numbers are not verified for a Twilio trial. Verify them or upgrade to remove this restriction."
      else
        "Sent " ++ toString success ++ "/" ++ toString total ++ ". Failed: " ++
          toString (f :: rest).length ++ ". First error: " ++ f.name ++ " - " ++
          f.error := rfl

/-- **C9.** After a batch send with at least one failure, the summary reports
successes out of the total and the failure count; when every failure carries
provider code 21608 it is the specialized Twilio-trial-verification message,
otherwise it surfaces the first failure's customer name and error message. -/
theorem c9_batch_summary (total success : Nat) (f : SmsFailure)
    (rest : List SmsFailure) :
    ((∀ g ∈ f :: rest, g.code = some 21608) →
      smsBatchSummary total success (f :: rest) =
        "Sent " ++ toString success ++ "/" ++ toString total ++ ". " ++
          toString (f :: rest).length ++
          " failed because numbers are not verified for a Twilio trial. Verify them or upgrade to remove this restriction.") ∧
    ((∃ g ∈ f :: rest, g.code ≠ some 21608) →
      smsBatchSummary total success (f :: rest) =
        "Sent " ++ toString success ++ "/" ++ toString total ++ ". Failed: " ++
          toString (f :: rest).length ++ ". First error: " ++ f.name ++ " - " ++ f.error) := by
  constructor
  · intro hall
    have hfe : ((f :: rest).filter (fun g => g.code == some 21608)) = f :: rest := by
      apply List.filter_eq_self.mpr
      intro g hg
      exact beq_iff_eq.mpr (hall g hg)
    rw [smsBatchSummary_cons, if_pos (by rw [hfe])]
  · intro hex
    obtain ⟨g, hg, hgc⟩ := hex
    have hne : ((f :: rest).filter (fun g => g.code == some 21608)).length ≠
        (f :: rest).length := by
      intro hlen
      have hsub := List.filter_sublist (l := f :: rest)
        (p := fun g => g.code == some 21608)
      have heq := hsub.eq_of_length hlen
      have := List.filter_eq_self.mp heq g hg
      exact hgc (beq_iff_eq.mp this)
    rw [smsBatchSummary_cons, if_neg hne]

/-- Witness for C9: one all-21608 batch and one mixed batch. -/
theorem c9_witness :
    smsBatchSummary 2 1 [⟨"Ann", "+15550000001", "unverified", some 21608⟩] =
      "Sent 1/2. 1 failed because numbers are not verified for a Twilio trial. Verify them or upgrade to remove this restriction." ∧
    smsBatchSummary 3 1 [⟨"Bob", "+15550000002", "bad number", some 21211⟩,
        ⟨"Cam", "+15550000003", "unverified", some 21608⟩] =
      "Sent 1/3. Failed: 2. First error: Bob - bad number" := by
  constructor
  · have := (c9_batch_summary 2 1 ⟨"Ann", "+15550000001", "unverified", some 21608⟩ []).1
      (by intro g hg; simp at hg; rw [hg])
    rw [this]
    decide
  · have := (c9_batch_summary 3 1 ⟨"Bob", "+15550000002", "bad number", some 21211⟩
      [⟨"Cam", "+15550000003", "unverified", some 21608⟩]).2
      ⟨⟨"Bob", "+15550000002", "bad number", some 21211⟩, by simp, by decide⟩
    rw [this]
    decide

/-! ## Funnel click (`handleOpenFunnel`, `App.tsx` lines 373-382) -/

/-- `handleOpenFunnel`: look up the customer by id; when absent do nothing,
otherwise set the status of every customer with that id to `Clicked` and
prepend one activity-log entry. -/
def handleOpenFunnel (customers : List Customer) (logs : List LogEntry)
    (customerId : String) : List Customer × List LogEntry :=
  match customers.find? (fun c => c.id == customerId) with
  | none => (customers, logs)
  | some cust =>
      (customers.map (fun c =>
        if c.id == customerId then { c with status := .Clicked } else c),
       ⟨cust.name, "Clicked review link (simulation)"⟩ :: logs)

/-- A `Pending` customer used to refute C8. -/
def c8Pending : Customer :=
  { id := "p1", name := "Pat", phone := "+15551234567", status := .Pending }

/-- **C8 counterexample.** The claim says a funnel-click leaves every
customer whose status is not `Sent` unchanged; but `handleOpenFunnel` sets the
looked-up customer to `Clicked` unconditionally, so a `Pending` customer is
transitioned by the click event. -/
theorem c8_counterexample :
    c8Pending.status ≠ .Sent ∧
    (handleOpenFunnel [c8Pending] [] "p1").1 ≠ [c8Pending] ∧
    (handleOpenFunnel [c8Pending] [] "p1").1.map Customer.status = [.Clicked] := by
  refine ⟨by decide, by decide, by decide⟩

/-- **C8 amended.** A funnel-click event on an id with no matching customer
changes nothing; a funnel-click on an existing customer sets the status of
every customer with that id to `Clicked` regardless of the prior status (so
`Sent → Clicked` holds, but the event is not restricted to `Sent`), leaves all
other customers unchanged, and appends exactly one activity-log entry. -/
theorem c8_funnel_click_amended (customers : List Customer)
    (logs : List LogEntry) (customerId : String) :
    ((customers.find? (fun c => c.id == customerId)).isNone →
      handleOpenFunnel customers logs customerId = (customers, logs)) ∧
    (∀ cust, customers.find? (fun c => c.id == customerId) = some cust →
      (handleOpenFunnel customers logs customerId).1.length = customers.length ∧
      (∀ (j : Nat) (c : Customer), customers[j]? = some c →
        (handleOpenFunnel customers logs customerId).1[j]? =
          some (if c.id == customerId then { c with status := .Clicked } else c)) ∧
      (handleOpenFunnel customers logs customerId).2 =
        ⟨cust.name, "Clicked review link (simulation)"⟩ :: logs) := by
  constructor
  · intro hnone
    unfold handleOpenFunnel
    rw [Option.isNone_iff_eq_none.mp hnone]
  · intro cust hsome
    unfold handleOpenFunnel
    rw [hsome]
    refine ⟨by simp, ?_, rfl⟩
    intro j c hc
    simp [List.getElem?_map, hc]

/-- Witness for C8 amended: a two-customer state where the second (a `Sent`
customer) is clicked. -/
theorem c8_witness :
    (handleOpenFunnel [c8Pending, ⟨"s1", "Sam", "+15557654321", .Sent, none, []⟩]
        [] "s1").1[1]? =
      some ⟨"s1", "Sam", "+15557654321", .Clicked, none, []⟩ ∧
    (handleOpenFunnel [c8Pending] [] "zzz") = ([c8Pending], []) := by
  constructor
  · have := ((c8_funnel_click_amended
      [c8Pending, ⟨"s1", "Sam", "+15557654321", .Sent, none, []⟩] [] "s1").2
      ⟨"s1", "Sam", "+15557654321", .Sent, none, []⟩ (by decide)).2.1 1
      ⟨"s1", "Sam", "+15557654321", .Sent, none, []⟩ (by decide)
    rw [this]
    decide
  · exact (c8_funnel_click_amended [c8Pending] [] "zzz").1 (by decide)

/-! ## SMS dispatch queue drain (`App.tsx` lines 128-235)

The drain `useEffect` loops while the backlog is nonempty: it takes a chunk of
up to 10 ids from the front (`smsQueue.slice(0, 10)`), drops the chunk from
the backlog (`prev.slice(chunk.length)`), and processes the chunk's ids in
order — looking each customer up, skipping the id when the customer is absent
or not `Pending`, and otherwise running `sendSmsToCustomer`.  React state
updates are modelled as sequential updates of an explicit state record; the
per-send and per-chunk pacing delays are pure waits with no state effect and
are omitted.  The `fetch` to `/send-sms` is abstracted as a provider oracle
`Customer → TwilioResult`; `logActivity` prepends, so `logs` is newest-first.
The loop terminates because each iteration removes at least one id, which the
embedding expresses with a fuel argument instantiated with the backlog
length. -/

/-- The Twilio credentials held in component state (`twilioAccountSid`,
`twilioAuthToken`, `twilioPhoneNumber`). -/
structure TwilioConfig where
  accountSid : String
  authToken : String
  fromNumber : String
deriving DecidableEq, Repr

/-- Outcome of the `fetch` to `/send-sms` seen by `sendSmsToCustomer`:
`data.success` true, `data.success` false with an optional `data.code`, or a
thrown network error. -/
inductive TwilioResult where
  | success
  | apiFailure (code : Option String)
  | networkFailure
deriving DecidableEq, Repr

/-- Customer list and activity log, the two pieces of React state the drain
mutates. -/
structure DrainState where
  customers : List Customer
  logs : List LogEntry
deriving DecidableEq, Repr

/-- `setCustomers(prev => prev.map(c => c.id === customer.id ? {...c, status} : c))`. -/
def setStatusById (customers : List Customer) (cid : String)
    (st : CustomerStatus) : List Customer :=
  customers.map (fun c => if c.id == cid then { c with status := st } else c)

/-- `sendSmsToCustomer` from `App.tsx`: missing credentials or missing phone
mark the customer `Failed` without a provider call; otherwise the provider
outcome decides between `Sent` and `Failed`, and one activity-log entry is
prepended in every case. -/
def sendSmsToCustomer (cfg : TwilioConfig) (provider : Customer → TwilioResult)
    (s : DrainState) (customer : Customer) : DrainState :=
  if cfg.accountSid = "" || cfg.authToken = "" || cfg.fromNumber = "" ||
      customer.phone = "" then
    { customers := setStatusById s.customers customer.id .Failed,
      logs := ⟨customer.name, "SMS failed (missing credentials)"⟩ :: s.logs }
  else
    match provider customer with
    | .success =>
        { customers := setStatusById s.customers customer.id .Sent,
          logs := ⟨customer.name, "Sent SMS"⟩ :: s.logs }
    | .apiFailure code =>
        { customers := setStatusById s.customers customer.id .Failed,
          logs := ⟨customer.name, "SMS failed (" ++ code.getD "error" ++ ")"⟩ :: s.logs }
    | .networkFailure =>
        { customers := setStatusById s.customers customer.id .Failed,
          logs := ⟨customer.name, "SMS network error"⟩ :: s.logs }

/-- One iteration of the `for (const id of chunk)` body: look up the
customer, skip when absent or not `Pending`, otherwise send. -/
def processId (cfg : TwilioConfig) (provider : Customer → TwilioResult)
    (s : DrainState) (cid : String) : DrainState :=
  match s.customers.find? (fun c => c.id == cid) with
  | none => s
  | some cust =>
      if cust.status ≠ .Pending then s
      else sendSmsToCustomer cfg provider s cust

/-- Processing one chunk of ids in order. -/
def processChunk (cfg : TwilioConfig) (provider : Customer → TwilioResult)
    (s : DrainState) (chunk : List String) : DrainState :=
  chunk.foldl (processId cfg provider) s

/-- The drain loop with fuel (the loop removes at least one id per iteration,
so fuel `queue.length` suffices).  The second component records the chunks in
the order they were drained. -/
def drainGo (cfg : TwilioConfig) (provider : Customer → TwilioResult) :
    Nat → DrainState → List String → DrainState × List (List String)
  | 0, s, _ => (s, [])
  | _ + 1, s, [] => (s, [])
  | fuel + 1, s, x :: q =>
      let chunk := (x :: q).take 10
      let r := drainGo cfg provider fuel (processChunk cfg provider s chunk)
        ((x :: q).drop chunk.length)
      (r.1, chunk :: r.2)

/-- A full drain of the backlog. -/
def drain (cfg : TwilioConfig) (provider : Customer → TwilioResult)
    (s : DrainState) (queue : List String) : DrainState × List (List String) :=
  drainGo cfg provider queue.length s queue

/-! ### Batch-structure lemmas for the drain trace -/

theorem drainGo_batches_flatten (cfg : TwilioConfig)
    (provider : Customer → TwilioResult) :
    ∀ fuel (q : List String) (s : DrainState), q.length ≤ fuel →
      ((drainGo cfg provider fuel s q).2).flatten = q := by
  intro fuel
  induction fuel with
  | zero =>
      intro q s hq
      have : q = [] := List.eq_nil_of_length_eq_zero (Nat.le_zero.mp hq)
      subst this
      rfl
  | succ n ih =>
      intro q s hq
      cases q with
      | nil => rfl
      | cons x t =>
          have hchunk : ((x :: t).take 10).length = min 10 (x :: t).length :=
            List.length_take 10 (x :: t)
          have hrest : ((x :: t).drop (min 10 (x :: t).length)).length ≤ n := by
            rw [List.length_drop]
            have : 1 ≤ min 10 (x :: t).length := by
              have h1 : 1 ≤ (x :: t).length := by simp
              omega
            have := hq
            simp only [List.length_cons] at this ⊢
            omega
          show ((x :: t).take 10 ++
            ((drainGo cfg provider n
              (processChunk cfg provider s ((x :: t).take 10))
              ((x :: t).drop ((x :: t).take 10).length)).2).flatten) = x :: t
          rw [hchunk, ih _ _ hrest]
          by_cases h10 : 10 ≤ (x :: t).length
          · rw [Nat.min_eq_left h10]
            exact List.take_append_drop 10 (x :: t)
          · have : min 10 (x :: t).length = (x :: t).length := by omega
            rw [this, List.drop_length, List.append_nil, List.take_of_length_le]
            omega

theorem drainGo_batches_sizes (cfg : TwilioConfig)
    (provider : Customer → TwilioResult) :
    ∀ fuel (q : List String) (s : DrainState), q.length ≤ fuel →
      ∀ b ∈ (drainGo cfg provider fuel s q).2, b ≠ [] ∧ b.length ≤ 10 := by
  intro fuel
  induction fuel with
  | zero =>
      intro q s hq b hb
      have : q = [] := List.eq_nil_of_length_eq_zero (Nat.le_zero.mp hq)
      subst this
      cases hb
  | succ n ih =>
      intro q s hq b hb
      cases q with
      | nil => cases hb
      | cons x t =>
          have hrest : ((x :: t).drop ((x :: t).take 10).length).length ≤ n := by
            rw [List.length_take, List.length_drop]
            have h1 : 1 ≤ min 10 (x :: t).length := by
              have : 1 ≤ (x :: t).length := by simp
              omega
            have := hq
            simp only [List.length_cons] at this ⊢
            omega
          have hb' : b = (x :: t).take 10 ∨
              b ∈ (drainGo cfg provider n
                (processChunk cfg provider s ((x :: t).take 10))
                ((x :: t).drop ((x :: t).take 10).length)).2 := by
            simpa [drainGo] using hb
          rcases hb' with hb' | hb'
          · subst hb'
            constructor
            · simp [List.take_cons]
            · rw [List.length_take]
              omega
          · exact ih _ _ hrest b hb'

theorem drainGo_batches_full (cfg : TwilioConfig)
    (provider : Customer → TwilioResult) :
    ∀ fuel (q : List String) (s : DrainState), q.length ≤ fuel →
      ∀ i : Nat, i + 1 < (drainGo cfg provider fuel s q).2.length →
        ∃ b, (drainGo cfg provider fuel s q).2[i]? = some b ∧ b.length = 10 := by
  intro fuel
  induction fuel with
  | zero =>
      intro q s hq i hi
      have : q = [] := List.eq_nil_of_length_eq_zero (Nat.le_zero.mp hq)
      subst this
      simp [drainGo] at hi
  | succ n ih =>
      intro q s hq i hi
      cases q with
      | nil => simp [drainGo] at hi
      | cons x t =>
          have hrest : ((x :: t).drop ((x :: t).take 10).length).length ≤ n := by
            rw [List.length_take, List.length_drop]
            have h1 : 1 ≤ min 10 (x :: t).length := by
              have : 1 ≤ (x :: t).length := by simp
              omega
            have := hq
            simp only [List.length_cons] at this ⊢
            omega
          have hshape : (drainGo cfg provider (n + 1) s (x :: t)).2 =
              (x :: t).take 10 ::
                (drainGo cfg provider n
                  (processChunk cfg provider s ((x :: t).take 10))
                  ((x :: t).drop ((x :: t).take 10).length)).2 := rfl
          rw [hshape] at hi ⊢
          cases i with
          | zero =>
              refine ⟨(x :: t).take 10, by simp, ?_⟩
              -- the trace of the rest is nonempty, so the rest is nonempty and
              -- this chunk is a full 10
              simp only [List.length_cons] at hi
              have htr : 0 < (drainGo cfg provider n
                  (processChunk cfg provider s ((x :: t).take 10))
                  ((x :: t).drop ((x :: t).take 10).length)).2.length := by
                omega
              have hflat := drainGo_batches_flatten cfg provider n
                ((x :: t).drop ((x :: t).take 10).length)
                (processChunk cfg provider s ((x :: t).take 10)) hrest
              have hrest_ne : (x :: t).drop ((x :: t).take 10).length ≠ [] := by
                intro he
                rw [he] at hflat htr
                cases hn : (drainGo cfg provider n
                    (processChunk cfg provider s ((x :: t).take 10)) []).2 with
                | nil => rw [hn] at htr; simp at htr
                | cons y ys =>
                    rw [hn] at hflat
                    have hy := drainGo_batches_sizes cfg provider n []
                      (processChunk cfg provider s ((x :: t).take 10))
                      (by simp) y (by rw [hn]; exact List.mem_cons_self y ys)
                    rw [List.flatten_cons] at hflat
                    exact hy.1 (List.append_eq_nil.mp hflat).1
              have hlen : 10 < (x :: t).length := by
                by_contra hle
                push_neg at hle
                apply hrest_ne
                rw [List.length_take]
                have : min 10 (x :: t).length = (x :: t).length := by omega
                rw [this, List.drop_length]
              rw [List.length_take]
              omega
          | succ j =>
              simp only [List.length_cons, Nat.add_lt_add_iff_right] at hi
              obtain ⟨b, hb, hb10⟩ := ih ((x :: t).drop ((x :: t).take 10).length)
                (processChunk cfg provider s ((x :: t).take 10)) hrest j (by omega)
              exact ⟨b, by simpa using hb, hb10⟩

/-! ## Claim C1 -/

/-- The `i`-th customer of the C1 end-to-end scenario: a valid `Pending`
customer. -/
def c1Customer (i : Nat) : Customer :=
  { id := "c" ++ toString i, name := "n" ++ toString i,
    phone := "+1500000000" ++ toString i, status := .Pending }

/-- Twelve valid `Pending` customers. -/
def c1Customers : List Customer := (List.range 12).map (fun i => c1Customer (i + 1))

/-- Their ids, enqueued in order. -/
def c1Queue : List String := c1Customers.map Customer.id

/-- Credentials present in component state. -/
def c1Cfg : TwilioConfig := ⟨"ACxxxx", "token", "+15550000000"⟩

/-- A mock provider that always succeeds. -/
def c1Provider : Customer → TwilioResult := fun _ => .success

/-- The drain of the C1 scenario. -/
def c1Result : DrainState × List (List String) :=
  drain c1Cfg c1Provider ⟨c1Customers, []⟩ c1Queue

/-- **C1.** The drain consumes the backlog in batches of exactly 10 from the
front with a final partial batch: in general the drained chunks concatenate
back to the backlog in order, every chunk is nonempty with at most 10 ids,
and every chunk except the last has exactly 10; in the 12-customer scenario
with an always-succeeding provider there are exactly 2 batches (10 then 2),
all 12 customers end `Sent`, and the 12 activity-log entries read in
chronological order follow the enqueue order. -/
theorem c1_drain_batches :
    (∀ (cfg : TwilioConfig) (provider : Customer → TwilioResult)
        (s : DrainState) (q : List String),
      ((drain cfg provider s q).2).flatten = q ∧
      (∀ b ∈ (drain cfg provider s q).2, b ≠ [] ∧ b.length ≤ 10) ∧
      (∀ i : Nat, i + 1 < (drain cfg provider s q).2.length →
        ∃ b, (drain cfg provider s q).2[i]? = some b ∧ b.length = 10)) ∧
    c1Result.2.map List.length = [10, 2] ∧
    c1Result.2.flatten = c1Queue ∧
    c1Result.1.customers.map Customer.status = List.replicate 12 .Sent ∧
    c1Result.1.logs.length = 12 ∧
    c1Result.1.logs.reverse =
      c1Customers.map (fun c => ⟨c.name, "Sent SMS"⟩) := by
  refine ⟨?_, ?_, ?_, ?_, ?_, ?_⟩
  · intro cfg provider s q
    exact ⟨drainGo_batches_flatten cfg provider q.length q s (Nat.le_refl _),
      drainGo_batches_sizes cfg provider q.length q s (Nat.le_refl _),
      drainGo_batches_full cfg provider q.length q s (Nat.le_refl _)⟩
  · decide
  · decide
  · decide
  · decide
  · decide

/-- Witness for C1's universally quantified part, instantiated at the
12-customer scenario (discharging the membership and index hypotheses at the
first batch). -/
theorem c1_witness :
    (drain c1Cfg c1Provider ⟨c1Customers, []⟩ c1Queue).2.flatten = c1Queue ∧
    (c1Queue.take 10 ≠ [] ∧ (c1Queue.take 10).length ≤ 10) ∧
    (∃ b, (drain c1Cfg c1Provider ⟨c1Customers, []⟩ c1Queue).2[0]? = some b ∧
      b.length = 10) := by
  refine ⟨(c1_drain_batches.1 c1Cfg c1Provider ⟨c1Customers, []⟩ c1Queue).1,
    (c1_drain_batches.1 c1Cfg c1Provider ⟨c1Customers, []⟩ c1Queue).2.1
      (c1Queue.take 10) ?_,
    (c1_drain_batches.1 c1Cfg c1Provider ⟨c1Customers, []⟩ c1Queue).2.2 0
      (by decide)⟩
  · decide

/-! ## Claim C2 -/

theorem setStatusById_map_id (customers : List Customer) (cid : String)
    (st : CustomerStatus) :
    (setStatusById customers cid st).map Customer.id = customers.map Customer.id := by
  unfold setStatusById
  rw [List.map_map]
  apply List.map_congr_left
  intro c _
  simp only [Function.comp_apply]
  split <;> rfl

theorem sendSmsToCustomer_map_id (cfg : TwilioConfig)
    (provider : Customer → TwilioResult) (s : DrainState) (cust : Customer) :
    (sendSmsToCustomer cfg provider s cust).customers.map Customer.id =
      s.customers.map Customer.id := by
  unfold sendSmsToCustomer
  by_cases h : cfg.accountSid = "" || cfg.authToken = "" || cfg.fromNumber = "" ||
      cust.phone = ""
  · rw [if_pos h]
    exact setStatusById_map_id _ _ _
  · rw [if_neg h]
    cases provider cust <;> exact setStatusById_map_id _ _ _

theorem processId_eq_none (cfg : TwilioConfig)
    (provider : Customer → TwilioResult) (s : DrainState) (cid : String)
    (hfind : s.customers.find? (fun c => c.id == cid) = none) :
    processId cfg provider s cid = s := by
  unfold processId
  rw [hfind]

theorem processId_eq_some (cfg : TwilioConfig)
    (provider : Customer → TwilioResult) (s : DrainState) (cid : String)
    (c0 : Customer)
    (hfind : s.customers.find? (fun c => c.id == cid) = some c0) :
    processId cfg provider s cid =
      if c0.status ≠ .Pending then s else sendSmsToCustomer cfg provider s c0 := by
  unfold processId
  rw [hfind]

/-- A non-`Pending` customer (looked up by its position `j`) survives one
`processId` step unchanged when customer ids are unique. -/
theorem processId_preserves_nonpending (cfg : TwilioConfig)
    (provider : Customer → TwilioResult) (s : DrainState) (cid : String)
    (j : Nat) (cust : Customer)
    (hnd : (s.customers.map Customer.id).Nodup)
    (hj : s.customers[j]? = some cust) (hst : cust.status ≠ .Pending) :
    (processId cfg provider s cid).customers[j]? = some cust ∧
    ((processId cfg provider s cid).customers.map Customer.id).Nodup := by
  cases hfind : s.customers.find? (fun c => c.id == cid) with
  | none => rw [processId_eq_none cfg provider s cid hfind]; exact ⟨hj, hnd⟩
  | some c0 =>
      rw [processId_eq_some cfg provider s cid c0 hfind]
      by_cases hp : c0.status ≠ CustomerStatus.Pending
      · rw [if_pos hp]
        exact ⟨hj, hnd⟩
      · rw [if_neg hp]
        push_neg at hp
        have hc0mem : c0 ∈ s.customers := List.mem_of_find?_eq_some hfind
        have hcustmem : cust ∈ s.customers := by
          have := List.getElem?_eq_some_iff.mp hj
          obtain ⟨hlt, hget⟩ := this
          exact hget ▸ List.getElem_mem hlt
        have hid_ne : cust.id ≠ c0.id := by
          intro he
          have : cust = c0 :=
            List.inj_on_of_nodup_map hnd hcustmem hc0mem he
          subst this
          exact hst hp
        constructor
        · have hupd : ∀ st',
              (setStatusById s.customers c0.id st')[j]? = some cust := by
            intro st'
            unfold setStatusById
            rw [List.getElem?_map, hj]
            exact congrArg some (if_neg (fun hbeq => hid_ne (eq_of_beq hbeq)))
          unfold sendSmsToCustomer
          by_cases hcred : cfg.accountSid = "" || cfg.authToken = "" ||
              cfg.fromNumber = "" || c0.phone = ""
          · rw [if_pos hcred]
            exact hupd .Failed
          · rw [if_neg hcred]
            cases provider c0 <;> exact hupd _
        · have : (sendSmsToCustomer cfg provider s c0).customers.map Customer.id =
              s.customers.map Customer.id := sendSmsToCustomer_map_id _ _ _ _
          rw [this]
          exact hnd

/-- A non-`Pending` customer survives a whole chunk unchanged. -/
theorem processChunk_preserves_nonpending (cfg : TwilioConfig)
    (provider : Customer → TwilioResult) :
    ∀ (chunk : List String) (s : DrainState) (j : Nat) (cust : Customer),
      (s.customers.map Customer.id).Nodup →
      s.customers[j]? = some cust → cust.status ≠ .Pending →
      (processChunk cfg provider s chunk).customers[j]? = some cust ∧
      ((processChunk cfg provider s chunk).customers.map Customer.id).Nodup := by
  intro chunk
  induction chunk with
  | nil => intro s j cust hnd hj _; exact ⟨hj, hnd⟩
  | cons x rest ih =>
      intro s j cust hnd hj hst
      have hstep := processId_preserves_nonpending cfg provider s x j cust hnd hj hst
      exact ih (processId cfg provider s x) j cust hstep.2 hstep.1 hst

/-- A non-`Pending` customer survives a whole drain unchanged. -/
theorem drainGo_preserves_nonpending (cfg : TwilioConfig)
    (provider : Customer → TwilioResult) :
    ∀ (fuel : Nat) (q : List String) (s : DrainState) (j : Nat) (cust : Customer),
      (s.customers.map Customer.id).Nodup →
      s.customers[j]? = some cust → cust.status ≠ .Pending →
      (drainGo cfg provider fuel s q).1.customers[j]? = some cust := by
  intro fuel
  induction fuel with
  | zero => intro q s j cust _ hj _; exact hj
  | succ n ih =>
      intro q s j cust hnd hj hst
      cases q with
      | nil => exact hj
      | cons x t =>
          have hstep := processChunk_preserves_nonpending cfg provider
            ((x :: t).take 10) s j cust hnd hj hst
          exact ih ((x :: t).drop ((x :: t).take 10).length)
            (processChunk cfg provider s ((x :: t).take 10)) j cust
            hstep.2 hstep.1 hst

/-- **C2.** The idempotence guard of the automatic drain: when the id looked
up from the backlog has no matching customer, or its (first) matching customer
is not `Pending`, the drain step is a no-op — no send happens and the whole
state (customers and activity log) is unchanged.  In particular, with unique
customer ids, a customer whose status is `Reviewed` is never transitioned by a
full automatic drain, whatever ids (including its own, repeatedly) are
enqueued. -/
theorem c2_drain_skip_guard (cfg : TwilioConfig)
    (provider : Customer → TwilioResult) (s : DrainState) (cid : String) :
    ((∀ c : Customer, s.customers.find? (fun c => c.id == cid) = some c →
        c.status ≠ .Pending) →
      processId cfg provider s cid = s) ∧
    (∀ (q : List String) (j : Nat) (cust : Customer),
      (s.customers.map Customer.id).Nodup →
      s.customers[j]? = some cust → cust.status = .Reviewed →
      (drain cfg provider s q).1.customers[j]? = some cust) := by
  constructor
  · intro hskip
    cases hfind : s.customers.find? (fun c => c.id == cid) with
    | none => exact processId_eq_none cfg provider s cid hfind
    | some c0 =>
        rw [processId_eq_some cfg provider s cid c0 hfind,
          if_pos (hskip c0 hfind)]
  · intro q j cust hnd hj hrev
    exact drainGo_preserves_nonpending cfg provider q.length q s j cust hnd hj
      (by rw [hrev]; intro h; cases h)

/-- Witness for C2: a two-customer state (one `Reviewed`, one `Sent`); the
drain step on the `Reviewed` customer's id is a no-op, and a full drain that
re-enqueues it twice leaves it untouched. -/
theorem c2_witness :
    processId c1Cfg c1Provider
      ⟨[⟨"r1", "Rae", "+15550000009", .Reviewed, none, []⟩,
        ⟨"s1", "Sam", "+15550000008", .Sent, none, []⟩], []⟩ "r1" =
      ⟨[⟨"r1", "Rae", "+15550000009", .Reviewed, none, []⟩,
        ⟨"s1", "Sam", "+15550000008", .Sent, none, []⟩], []⟩ ∧
    (drain c1Cfg c1Provider
      ⟨[⟨"r1", "Rae", "+15550000009", .Reviewed, none, []⟩,
        ⟨"s1", "Sam", "+15550000008", .Sent, none, []⟩], []⟩
      ["r1", "r1"]).1.customers[0]? =
      some ⟨"r1", "Rae", "+15550000009", .Reviewed, none, []⟩ := by
  constructor
  · exact (c2_drain_skip_guard c1Cfg c1Provider
      ⟨[⟨"r1", "Rae", "+15550000009", .Reviewed, none, []⟩,
        ⟨"s1", "Sam", "+15550000008", .Sent, none, []⟩], []⟩ "r1").1
      (by
        intro c hc
        have : some (⟨"r1", "Rae", "+15550000009", .Reviewed, none, []⟩ : Customer) =
            some c := by
          rw [← hc]
          decide
        cases this
        decide)
  · exact (c2_drain_skip_guard c1Cfg c1Provider
      ⟨[⟨"r1", "Rae", "+15550000009", .Reviewed, none, []⟩,
        ⟨"s1", "Sam", "+15550000008", .Sent, none, []⟩], []⟩ "r1").2
      ["r1", "r1"] 0 ⟨"r1", "Rae", "+15550000009", .Reviewed, none, []⟩
      (by decide) (by decide) rfl

/-! ## `addFeedback` (`App.tsx` lines 433-488)

`addFeedback(customerId, text, sentiment, phone?, rating?)` builds one new
entry (with a fresh random id and the current date, both environment inputs
passed in here as `fid`) and appends it to exactly one customer inside the
`setCustomers` updater: first matching by id, then by normalized phone digits
(`s.replace(/\D/g, "")`), and finally a synthetic "Public Feedback" bucket,
created at the front of the list when absent.  `Array.prototype.findIndex` is
embedded as `jsFindIndex` (returning `none` for `-1`), and the
`arr.map((c, i) => i === index ? {...c, feedback: [...c.feedback, e]} : c)`
helper as the positionally recursive `appendFeedbackAt`. -/

/-- `s.replace(/\D/g, "")`: the digits of a phone string. -/
def digitsOf (s : String) : String := String.mk (s.toList.filter Char.isDigit)

/-- `Array.prototype.findIndex` (first index satisfying `p`, or `none`). -/
def jsFindIndex (p : Customer → Bool) : List Customer → Option Nat
  | [] => none
  | c :: rest => if p c then some 0 else (jsFindIndex p rest).map (· + 1)

/-- `appendAt`: append `e` to the feedback list of the customer at `index`,
leaving every other customer untouched. -/
def appendFeedbackAt (e : FeedbackEntry) : List Customer → Nat → List Customer
  | [], _ => []
  | c :: rest, 0 => { c with feedback := c.feedback ++ [e] } :: rest
  | c :: rest, i + 1 => c :: appendFeedbackAt e rest i

/-- The synthetic "Public Feedback" bucket created when no customer matches. -/
def publicFeedbackBucket (e : FeedbackEntry) : Customer :=
  { id := "public-feedback", name := "Public Feedback", phone := "N/A",
    status := .Reviewed, rating := none, feedback := [e] }

/-- Step 3 of `addFeedback`: reuse or create the synthetic bucket. -/
def addFeedbackFallback (prev : List Customer) (e : FeedbackEntry) : List Customer :=
  match jsFindIndex (fun c => c.id == "public-feedback") prev with
  | some idx => appendFeedbackAt e prev idx
  | none => publicFeedbackBucket e :: prev

/-- The `setCustomers` updater of `addFeedback`: try by id, then (when the
`phone` argument is truthy) by normalized phone, then the bucket. -/
def addFeedback (prev : List Customer) (customerId : String)
    (e : FeedbackEntry) (phone : Option String) : List Customer :=
  match jsFindIndex (fun c => c.id == customerId) prev with
  | some idx => appendFeedbackAt e prev idx
  | none =>
      match phone with
      | some p =>
          if p ≠ "" then
            match jsFindIndex (fun c => digitsOf c.phone == digitsOf p) prev with
            | some idx => appendFeedbackAt e prev idx
            | none => addFeedbackFallback prev e
          else addFeedbackFallback prev e
      | none => addFeedbackFallback prev e

/-- The new entry built by `addFeedback`: trimmed text, the given sentiment
and phone, and the rating when it is a number. -/
def mkFeedbackEntry (fid text : String) (sentiment : Sentiment)
    (phone : Option String) (rating : Option Nat) : FeedbackEntry :=
  { id := fid, text := String.mk (jsTrimList text.toList),
    sentiment := sentiment, phone := phone, rating := rating }

/-- `i` is the first index of `l` whose element satisfies `p`. -/
def FirstIdx (p : Customer → Bool) (l : List Customer) (i : Nat) : Prop :=
  (∃ c, l[i]? = some c ∧ p c = true) ∧
  ∀ j : Nat, j < i → ∀ d : Customer, l[j]? = some d → p d = false

/-- `next` is `prev` with `e` appended to the feedback of the customer at
position `i` and nothing else changed: exactly one entry is added to exactly
one customer, and no existing entry is mutated or removed. -/
def AppendedAt (prev next : List Customer) (e : FeedbackEntry) (i : Nat) : Prop :=
  next.length = prev.length ∧
  (∀ j : Nat, j ≠ i → next[j]? = prev[j]?) ∧
  ∃ c, prev[i]? = some c ∧ next[i]? = some { c with feedback := c.feedback ++ [e] }

theorem jsFindIndex_some {p : Customer → Bool} :
    ∀ {l : List Customer} {i : Nat}, jsFindIndex p l = some i → FirstIdx p l i := by
  intro l
  induction l with
  | nil => intro i h; cases h
  | cons c rest ih =>
      intro i h
      unfold jsFindIndex at h
      by_cases hp : p c
      · rw [if_pos hp] at h
        cases h
        exact ⟨⟨c, by simp, hp⟩, fun j hj d _ => absurd hj (by omega)⟩
      · rw [if_neg hp] at h
        cases hrec : jsFindIndex p rest with
        | none => rw [hrec] at h; cases h
        | some k =>
            rw [hrec] at h
            have hik : k + 1 = i := by simpa using h
            cases hik
            obtain ⟨⟨d, hd, hpd⟩, hmin⟩ := ih hrec
            refine ⟨⟨d, by simpa using hd, hpd⟩, ?_⟩
            intro j hj d' hd'
            cases j with
            | zero =>
                have hdc : d' = c := by simpa using hd'.symm
                subst hdc
                simpa using hp
            | succ j' =>
                exact hmin j' (by omega) d' (by simpa using hd')

theorem jsFindIndex_none {p : Customer → Bool} :
    ∀ {l : List Customer}, jsFindIndex p l = none → ∀ c ∈ l, p c = false := by
  intro l
  induction l with
  | nil => intro _ c hc; cases hc
  | cons a rest ih =>
      intro h c hc
      unfold jsFindIndex at h
      by_cases hp : p a
      · rw [if_pos hp] at h; cases h
      · rw [if_neg hp] at h
        rcases List.mem_cons.mp hc with rfl | hc'
        · simpa using hp
        · cases hrec : jsFindIndex p rest with
          | none => exact ih hrec c hc'
          | some k => rw [hrec] at h; cases h

theorem appendFeedbackAt_spec (e : FeedbackEntry) :
    ∀ (l : List Customer) (i : Nat), i < l.length →
      AppendedAt l (appendFeedbackAt e l i) e i := by
  intro l
  induction l with
  | nil => intro i hi; cases hi
  | cons c rest ih =>
      intro i hi
      cases i with
      | zero =>
          refine ⟨by simp [appendFeedbackAt], ?_, c, by simp,
            by simp [appendFeedbackAt]⟩
          intro j hj
          cases j with
          | zero => exact absurd rfl hj
          | succ j' => simp [appendFeedbackAt]
      | succ i' =>
          have hi' : i' < rest.length := by simpa using hi
          obtain ⟨hlen, hother, d, hd, hd'⟩ := ih i' hi'
          refine ⟨by simpa [appendFeedbackAt] using hlen, ?_, d, by simpa using hd,
            by simpa [appendFeedbackAt] using hd'⟩
          intro j hj
          cases j with
          | zero => simp [appendFeedbackAt]
          | succ j' =>
              have := hother j' (by omega)
              simpa [appendFeedbackAt] using this

theorem firstIdx_lt_length {p : Customer → Bool} {l : List Customer} {i : Nat}
    (h : FirstIdx p l i) : i < l.length := by
  obtain ⟨⟨c, hc, -⟩, -⟩ := h
  exact (List.getElem?_eq_some_iff.mp hc).1

/-- **C10.** Every `addFeedback` call appends the one new entry to exactly one
customer, mutating or removing nothing else and never dropping the entry: it
goes to the first customer whose id is `customerId` when one exists; otherwise
to the first customer whose phone digits match the given (nonempty) phone;
otherwise to the "public-feedback" bucket, which is created at the front of
the list (with name "Public Feedback" and status `Reviewed`) when absent. -/
theorem c10_add_feedback (prev : List Customer) (customerId fid text : String)
    (sentiment : Sentiment) (phone : Option String) (rating : Option Nat) :
    (∃ i, FirstIdx (fun c => c.id == customerId) prev i ∧
      AppendedAt prev
        (addFeedback prev customerId
          (mkFeedbackEntry fid text sentiment phone rating) phone)
        (mkFeedbackEntry fid text sentiment phone rating) i) ∨
    ((∀ c ∈ prev, c.id ≠ customerId) ∧
      ∃ p, phone = some p ∧ p ≠ "" ∧
      ∃ i, FirstIdx (fun c => digitsOf c.phone == digitsOf p) prev i ∧
        AppendedAt prev
          (addFeedback prev customerId
            (mkFeedbackEntry fid text sentiment phone rating) phone)
          (mkFeedbackEntry fid text sentiment phone rating) i) ∨
    ((∀ c ∈ prev, c.id ≠ customerId) ∧
      (∀ p, phone = some p → p ≠ "" → ∀ c ∈ prev, digitsOf c.phone ≠ digitsOf p) ∧
      ((∃ i, FirstIdx (fun c => c.id == "public-feedback") prev i ∧
          AppendedAt prev
            (addFeedback prev customerId
              (mkFeedbackEntry fid text sentiment phone rating) phone)
            (mkFeedbackEntry fid text sentiment phone rating) i) ∨
        ((∀ c ∈ prev, c.id ≠ "public-feedback") ∧
          addFeedback prev customerId
              (mkFeedbackEntry fid text sentiment phone rating) phone =
            publicFeedbackBucket (mkFeedbackEntry fid text sentiment phone rating)
              :: prev))) := by
  set e := mkFeedbackEntry fid text sentiment phone rating with he
  have hfallback : ∀ other : List Customer,
      addFeedbackFallback prev e = other →
      (∃ i, FirstIdx (fun c => c.id == "public-feedback") prev i ∧
          AppendedAt prev other e i) ∨
        ((∀ c ∈ prev, c.id ≠ "public-feedback") ∧
          other = publicFeedbackBucket e :: prev) := by
    intro other heq
    unfold addFeedbackFallback at heq
    cases hfb : jsFindIndex (fun c => c.id == "public-feedback") prev with
    | some idx =>
        rw [hfb] at heq
        left
        have hfirst := jsFindIndex_some hfb
        exact ⟨idx, hfirst, heq ▸ appendFeedbackAt_spec e prev idx
          (firstIdx_lt_length hfirst)⟩
    | none =>
        rw [hfb] at heq
        right
        refine ⟨fun c hc hcid => ?_, heq.symm⟩
        have := jsFindIndex_none hfb c hc
        rw [hcid] at this
        simp at this
  cases hid : jsFindIndex (fun c => c.id == customerId) prev with
  | some idx =>
      have heq : addFeedback prev customerId e phone = appendFeedbackAt e prev idx := by
        simp only [addFeedback, hid]
      left
      have hfirst := jsFindIndex_some hid
      exact ⟨idx, hfirst,
        heq ▸ appendFeedbackAt_spec e prev idx (firstIdx_lt_length hfirst)⟩
  | none =>
      have hnoid : ∀ c ∈ prev, c.id ≠ customerId := fun c hc hcid => by
        have := jsFindIndex_none hid c hc
        rw [hcid] at this
        simp at this
      cases phone with
      | none =>
          right; right
          refine ⟨hnoid, ?_, ?_⟩
          · intro q hq
            cases hq
          · apply hfallback
            simp only [addFeedback, hid]
      | some p =>
          by_cases hpe : p ≠ ""
          · cases hphm : jsFindIndex (fun c => digitsOf c.phone == digitsOf p) prev with
            | some idx =>
                have heq : addFeedback prev customerId e (some p) =
                    appendFeedbackAt e prev idx := by
                  simp only [addFeedback, hid]
                  rw [if_pos hpe, hphm]
                right; left
                have hfirst := jsFindIndex_some hphm
                exact ⟨hnoid, p, rfl, hpe, idx, hfirst,
                  heq ▸ appendFeedbackAt_spec e prev idx (firstIdx_lt_length hfirst)⟩
            | none =>
                right; right
                have hnoph : ∀ q, some p = some q → q ≠ "" →
                    ∀ c ∈ prev, digitsOf c.phone ≠ digitsOf q := by
                  intro q hq _ c hc hd
                  cases hq
                  have := jsFindIndex_none hphm c hc
                  rw [hd] at this
                  simp at this
                refine ⟨hnoid, hnoph, ?_⟩
                apply hfallback
                simp only [addFeedback, hid]
                rw [if_pos hpe, hphm]
          · push_neg at hpe
            right; right
            have hnoph : ∀ q, some p = some q → q ≠ "" →
                ∀ c ∈ prev, digitsOf c.phone ≠ digitsOf q := by
              intro q hq hqe
              cases hq
              exact absurd hpe hqe
            refine ⟨hnoid, hnoph, ?_⟩
            apply hfallback
            simp only [addFeedback, hid]
            rw [if_neg (by simpa using hpe)]

/-- Witness for C10: two customers, feedback addressed to the second by id. -/
theorem c10_witness :
    (∃ i, FirstIdx (fun c => c.id == "b2")
        [⟨"a1", "Ann", "+15550000001", .Sent, none, []⟩,
          ⟨"b2", "Ben", "+15550000002", .Clicked, none, []⟩] i ∧
      AppendedAt
        [⟨"a1", "Ann", "+15550000001", .Sent, none, []⟩,
          ⟨"b2", "Ben", "+15550000002", .Clicked, none, []⟩]
        (addFeedback
          [⟨"a1", "Ann", "+15550000001", .Sent, none, []⟩,
            ⟨"b2", "Ben", "+15550000002", .Clicked, none, []⟩] "b2"
          (mkFeedbackEntry "fb1" " great service " .positive none (some 5)) none)
        (mkFeedbackEntry "fb1" " great service " .positive none (some 5)) i) ∨
    ((∀ c ∈ [⟨"a1", "Ann", "+15550000001", .Sent, none, []⟩,
        (⟨"b2", "Ben", "+15550000002", .Clicked, none, []⟩ : Customer)],
        c.id ≠ "b2") ∧
      ∃ p, (none : Option String) = some p ∧ p ≠ "" ∧
      ∃ i, FirstIdx (fun c => digitsOf c.phone == digitsOf p)
          [⟨"a1", "Ann", "+15550000001", .Sent, none, []⟩,
            ⟨"b2", "Ben", "+15550000002", .Clicked, none, []⟩] i ∧
        AppendedAt
          [⟨"a1", "Ann", "+15550000001", .Sent, none, []⟩,
            ⟨"b2", "Ben", "+15550000002", .Clicked, none, []⟩]
          (addFeedback
            [⟨"a1", "Ann", "+15550000001", .Sent, none, []⟩,
              ⟨"b2", "Ben", "+15550000002", .Clicked, none, []⟩] "b2"
            (mkFeedbackEntry "fb1" " great service " .positive none (some 5)) none)
          (mkFeedbackEntry "fb1" " great service " .positive none (some 5)) i) ∨
    ((∀ c ∈ [⟨"a1", "Ann", "+15550000001", .Sent, none, []⟩,
        (⟨"b2", "Ben", "+15550000002", .Clicked, none, []⟩ : Customer)],
        c.id ≠ "b2") ∧
      (∀ p, (none : Option String) = some p → p ≠ "" →
        ∀ c ∈ [⟨"a1", "Ann", "+15550000001", .Sent, none, []⟩,
          (⟨"b2", "Ben", "+15550000002", .Clicked, none, []⟩ : Customer)],
          digitsOf c.phone ≠ digitsOf p) ∧
      ((∃ i, FirstIdx (fun c => c.id == "public-feedback")
            [⟨"a1", "Ann", "+15550000001", .Sent, none, []⟩,
              ⟨"b2", "Ben", "+15550000002", .Clicked, none, []⟩] i ∧
          AppendedAt
            [⟨"a1", "Ann", "+15550000001", .Sent, none, []⟩,
              ⟨"b2", "Ben", "+15550000002", .Clicked, none, []⟩]
            (addFeedback
              [⟨"a1", "Ann", "+15550000001", .Sent, none, []⟩,
                ⟨"b2", "Ben", "+15550000002", .Clicked, none, []⟩] "b2"
              (mkFeedbackEntry "fb1" " great service " .positive none (some 5)) none)
            (mkFeedbackEntry "fb1" " great service " .positive none (some 5)) i) ∨
        ((∀ c ∈ [⟨"a1", "Ann", "+15550000001", .Sent, none, []⟩,
            (⟨"b2", "Ben", "+15550000002", .Clicked, none, []⟩ : Customer)],
            c.id ≠ "public-feedback") ∧
          addFeedback
              [⟨"a1", "Ann", "+15550000001", .Sent, none, []⟩,
                ⟨"b2", "Ben", "+15550000002", .Clicked, none, []⟩] "b2"
              (mkFeedbackEntry "fb1" " great service " .positive none (some 5)) none =
            publicFeedbackBucket
                (mkFeedbackEntry "fb1" " great service " .positive none (some 5))
              :: [⟨"a1", "Ann", "+15550000001", .Sent, none, []⟩,
                ⟨"b2", "Ben", "+15550000002", .Clicked, none, []⟩]))) :=
  c10_add_feedback
    [⟨"a1", "Ann", "+15550000001", .Sent, none, []⟩,
      ⟨"b2", "Ben", "+15550000002", .Clicked, none, []⟩]
    "b2" "fb1" " great service " .positive none (some 5)

end Business
